import Mathlib

/-!
Verification development for the ResearchAssistant orchestration engine.

Shallow embedding of:
- `src/backend/agents/middleware/parallelize_middleware.py`
  (`ParallelBeforeMiddleware.before_agent_logic`,
   `ParallelAfterMiddleware.after_agent_logic`)
- `src/backend/app.py` (`process_chat_task`, `get_task_status`, endpoints)
- `src/backend/agents/middleware/query_analyzer_middlerware.py`
  (`QueryAnalyzerHumanInterruptMiddleware.after_agent_logic`)
- `src/backend/agents/middleware/content_safety_middleware.py`
  (`ContentSafetyAssistantMiddleware.after_agent_logic`)
- `src/backend/agents/middleware/base_middleware.py` (`refusal_phrases`)
- `src/backend/agents/deep_agent.py` (`DeepAgents` methods)
plus spec-modelled components (Merger §4.4, Scheduler §4.3) that have no
implementation under the backend sources.
-/

set_option maxRecDepth 10000

namespace ResearchAssistant

/-- A Python exception value: `str(e)` plus the traceback text that
`process_chat_task` appends. -/
structure PyExc where
  msg : String
  tb : String
deriving DecidableEq, Repr

/-- Outcome of one guard middleware invocation, as observed by
`future.result()` in the parallel wrapper: either a normal return
(`None` = pass, or a dict carrying the refusal message = block),
or a raised exception. -/
inductive GuardOutcome where
  | ok : Option String → GuardOutcome
  | err : PyExc → GuardOutcome
deriving DecidableEq, Repr

/-- Result of the enclosing guard stage: either the returned verdict
(`none` = all passed, `some b` = blocked with message `b`), or an
exception that propagated out of the stage. -/
inductive StageResult where
  | verdict : Option String → StageResult
  | raised : PyExc → StageResult
deriving DecidableEq, Repr

/-- `ParallelBeforeMiddleware.before_agent_logic` /
`ParallelAfterMiddleware.after_agent_logic`
(`parallelize_middleware.py`, lines 20-32 and 44-57; both bodies are the
same loop): iterate the futures in completion order, `future.result()`
re-raises a guard's exception, a non-`None` result is returned at once,
and `None` is returned only once the loop has drained every future.
The argument list is the guards' outcomes in completion order. -/
def parallel_agent_logic : List GuardOutcome → StageResult
  | [] => .verdict none
  | .err e :: _ => .raised e
  | .ok (some b) :: _ => .verdict (some b)
  | .ok none :: rest => parallel_agent_logic rest

/-- Same loop, additionally counting how many guard results the loop
observed before returning (each `future.result()` call is one
observation). -/
def parallel_agent_logic_count : List GuardOutcome → StageResult × Nat
  | [] => (.verdict none, 0)
  | .err e :: _ => (.raised e, 1)
  | .ok (some b) :: _ => (.verdict (some b), 1)
  | .ok none :: rest =>
      let p := parallel_agent_logic_count rest
      (p.1, p.2 + 1)

/-- Result of `deep_agent.invoke` as seen by `process_chat_task`:
either the final response content, or a raised exception (any exception
from middleware, including a guard's, propagates here). -/
inductive InvokeResult where
  | success : String → InvokeResult
  | raised : PyExc → InvokeResult
deriving DecidableEq, Repr

/-- The per-task record written to the store by `process_chat_task`
(`app.py`, lines 62-87). -/
structure TaskRecord where
  status : String
  result : Option String
  error : Option String
deriving DecidableEq, Repr

/-- `process_chat_task` (`app.py`, lines 62-87): on success it stores
`status="completed"` with the last message content; on any exception it
stores `status="failed"` and `error = f"{str(e)}\n{traceback.format_exc()}"`. -/
def process_chat_task : InvokeResult → TaskRecord
  | .success content => { status := "completed", result := some content, error := none }
  | .raised e => { status := "failed", result := none, error := some (e.msg ++ "\n" ++ e.tb) }

/-- The response returned by the status operation. -/
structure TaskStatusResponse where
  task_id : String
  status : String
  result : Option String
  error : Option String
deriving DecidableEq, Repr

/-- `get_task_status` (`app.py`, lines 110-123): copies the stored hash
fields into the response verbatim. -/
def get_task_status (task_id : String) (rec : TaskRecord) : TaskStatusResponse :=
  { task_id := task_id, status := rec.status, result := rec.result, error := rec.error }

/-- A concrete guard-invocation failure: a transport timeout raised inside
`mw.before_agent_logic`, re-raised by `future.result()`. -/
def timeoutExc : PyExc :=
  { msg := "ReadTimeout: guard oracle did not respond",
    tb := "Traceback (most recent call last): ..." }

theorem parallel_agent_logic_count_fst (l : List GuardOutcome) :
    (parallel_agent_logic_count l).1 = parallel_agent_logic l := by
  induction l with
  | nil => rfl
  | cons x rest ih =>
    cases x with
    | err e => rfl
    | ok r =>
      cases r with
      | some b => rfl
      | none => simpa [parallel_agent_logic, parallel_agent_logic_count] using ih

theorem parallel_agent_logic_all_pass (l : List GuardOutcome)
    (h : ∀ x ∈ l, x = GuardOutcome.ok none) :
    parallel_agent_logic_count l = (StageResult.verdict none, l.length) := by
  induction l with
  | nil => rfl
  | cons x rest ih =>
    have hx : x = GuardOutcome.ok none := h x (List.mem_cons_self x rest)
    subst hx
    have hrest : ∀ y ∈ rest, y = GuardOutcome.ok none := fun y hy =>
      h y (List.mem_cons_of_mem _ hy)
    simp [parallel_agent_logic_count, ih hrest]

theorem parallel_agent_logic_pass_only_if_all_pass (l : List GuardOutcome) (n : Nat)
    (h : parallel_agent_logic_count l = (StageResult.verdict none, n)) :
    n = l.length ∧ ∀ x ∈ l, x = GuardOutcome.ok none := by
  induction l generalizing n with
  | nil =>
    refine ⟨?_, by simp⟩
    simpa [parallel_agent_logic_count] using (congrArg Prod.snd h).symm
  | cons x rest ih =>
    cases x with
    | err e => simp [parallel_agent_logic_count] at h
    | ok r =>
      cases r with
      | some b => simp [parallel_agent_logic_count] at h
      | none =>
        simp only [parallel_agent_logic_count] at h
        have h1 : (parallel_agent_logic_count rest).1 = StageResult.verdict none := by
          have := congrArg Prod.fst h
          simpa using this
        have h2 : (parallel_agent_logic_count rest).2 + 1 = n := by
          have := congrArg Prod.snd h
          simpa using this
        obtain ⟨hn, hall⟩ := ih (parallel_agent_logic_count rest).2 (by
          rw [← h1])
        constructor
        · simp only [List.length_cons]; omega
        · intro y hy
          rcases List.mem_cons.mp hy with hy | hy
          · exact hy
          · exact hall y hy

/-- C1 (corrected): an erroring guard never lets the stage return Pass,
but instead of a Block verdict the exception propagates (unless an
earlier-completing guard already blocked); a propagated exception makes
`process_chat_task` record the task as `failed` — a system error, not a
safety refusal. -/
theorem guard_error_never_passes (l : List GuardOutcome) (e : PyExc)
    (hmem : GuardOutcome.err e ∈ l) :
    parallel_agent_logic l ≠ StageResult.verdict none
    ∧ ((∃ e', parallel_agent_logic l = StageResult.raised e'
          ∧ (process_chat_task (InvokeResult.raised e')).status = "failed"
          ∧ (process_chat_task (InvokeResult.raised e')).error
              = some (e'.msg ++ "\n" ++ e'.tb))
        ∨ (∃ b, parallel_agent_logic l = StageResult.verdict (some b))) := by
  induction l with
  | nil => cases hmem
  | cons x rest ih =>
    cases x with
    | err e' =>
      refine ⟨by simp [parallel_agent_logic], Or.inl ⟨e', rfl, rfl, rfl⟩⟩
    | ok r =>
      cases r with
      | some b =>
        refine ⟨by simp [parallel_agent_logic], Or.inr ⟨b, rfl⟩⟩
      | none =>
        have hmem' : GuardOutcome.err e ∈ rest := by
          rcases List.mem_cons.mp hmem with h | h
          · cases h
          · exact h
        have := ih hmem'
        simpa [parallel_agent_logic] using this

/-- Witness for `guard_error_never_passes` at a one-guard stage whose guard
times out. -/
theorem guard_error_never_passes_witness :
    GuardOutcome.err timeoutExc ∈ [GuardOutcome.err timeoutExc]
    ∧ (parallel_agent_logic [GuardOutcome.err timeoutExc] ≠ StageResult.verdict none
       ∧ ((∃ e', parallel_agent_logic [GuardOutcome.err timeoutExc] = StageResult.raised e'
             ∧ (process_chat_task (InvokeResult.raised e')).status = "failed"
             ∧ (process_chat_task (InvokeResult.raised e')).error
                 = some (e'.msg ++ "\n" ++ e'.tb))
           ∨ (∃ b, parallel_agent_logic [GuardOutcome.err timeoutExc]
               = StageResult.verdict (some b)))) :=
  ⟨List.mem_cons_self _ _,
   guard_error_never_passes [GuardOutcome.err timeoutExc] timeoutExc
     (List.mem_cons_self _ _)⟩

/-- Counterexample to C1 as stated: with one guard that raises a timeout,
the stage result is the propagated exception, not a Block verdict, and the
caller-visible task record says `failed` and carries the raw error detail —
a system error rather than a safety refusal. -/
theorem guard_error_cex :
    parallel_agent_logic [GuardOutcome.err timeoutExc] = StageResult.raised timeoutExc
    ∧ (process_chat_task (InvokeResult.raised timeoutExc)).status = "failed"
    ∧ (process_chat_task (InvokeResult.raised timeoutExc)).result = none
    ∧ (process_chat_task (InvokeResult.raised timeoutExc)).error
        = some (timeoutExc.msg ++ "\n" ++ timeoutExc.tb) :=
  ⟨rfl, rfl, rfl, rfl⟩

/-- C4 (confirmed): when every guard outcome is either Pass or the Block
verdict `b` and at least one Block is present (in particular when exactly
one guard blocks), the stage returns `b` no matter the completion order,
and any reordering of completions yields the same result. -/
theorem first_block_wins (l : List GuardOutcome) (b : String)
    (hmem : GuardOutcome.ok (some b) ∈ l)
    (hall : ∀ x ∈ l, x = GuardOutcome.ok (some b) ∨ x = GuardOutcome.ok none) :
    parallel_agent_logic l = StageResult.verdict (some b)
    ∧ ∀ l', l.Perm l' → parallel_agent_logic l' = StageResult.verdict (some b) := by
  have main : ∀ m : List GuardOutcome, GuardOutcome.ok (some b) ∈ m →
      (∀ x ∈ m, x = GuardOutcome.ok (some b) ∨ x = GuardOutcome.ok none) →
      parallel_agent_logic m = StageResult.verdict (some b) := by
    intro m
    induction m with
    | nil => intro hm; cases hm
    | cons x rest ih =>
      intro hm hall'
      rcases hall' x (List.mem_cons_self x rest) with hx | hx
      · subst hx; rfl
      · subst hx
        have hm' : GuardOutcome.ok (some b) ∈ rest := by
          rcases List.mem_cons.mp hm with h | h
          · simp at h
          · exact h
        have hall'' : ∀ y ∈ rest, y = GuardOutcome.ok (some b) ∨ y = GuardOutcome.ok none :=
          fun y hy => hall' y (List.mem_cons_of_mem _ hy)
        simpa [parallel_agent_logic] using ih hm' hall''
  refine ⟨main l hmem hall, fun l' hperm => ?_⟩
  exact main l' (hperm.mem_iff.mp hmem)
    (fun x hx => hall x (hperm.mem_iff.mpr hx))

/-- Witness for `first_block_wins`: one blocking guard among two passing
ones, in two different completion orders. -/
theorem first_block_wins_witness :
    parallel_agent_logic
        [GuardOutcome.ok none, GuardOutcome.ok (some "B"), GuardOutcome.ok none]
      = StageResult.verdict (some "B")
    ∧ parallel_agent_logic
        [GuardOutcome.ok (some "B"), GuardOutcome.ok none, GuardOutcome.ok none]
      = StageResult.verdict (some "B") :=
  ⟨(first_block_wins
      [GuardOutcome.ok none, GuardOutcome.ok (some "B"), GuardOutcome.ok none] "B"
      (by decide) (by decide)).1,
   (first_block_wins
      [GuardOutcome.ok none, GuardOutcome.ok (some "B"), GuardOutcome.ok none] "B"
      (by decide) (by decide)).2
     [GuardOutcome.ok (some "B"), GuardOutcome.ok none, GuardOutcome.ok none]
     (by decide)⟩

/-- C5 (confirmed): if every guard returns Pass the stage returns Pass, and
only after observing every guard's result (`future.result()` is called once
per future, and the loop over `as_completed` drains them all); conversely a
Pass result is only ever produced with all `l₂.length` results observed. -/
theorem all_pass_after_all_observed (l : List GuardOutcome)
    (h : ∀ x ∈ l, x = GuardOutcome.ok none) :
    parallel_agent_logic_count l = (StageResult.verdict none, l.length)
    ∧ ∀ (l₂ : List GuardOutcome) (n : Nat),
        parallel_agent_logic_count l₂ = (StageResult.verdict none, n) → n = l₂.length := by
  refine ⟨parallel_agent_logic_all_pass l h, fun l₂ n hn => ?_⟩
  exact (parallel_agent_logic_pass_only_if_all_pass l₂ n hn).1

/-- Witness for `all_pass_after_all_observed` with three passing guards. -/
theorem all_pass_after_all_observed_witness :
    parallel_agent_logic_count
        [GuardOutcome.ok none, GuardOutcome.ok none, GuardOutcome.ok none]
      = (StageResult.verdict none, 3) :=
  (all_pass_after_all_observed
      [GuardOutcome.ok none, GuardOutcome.ok none, GuardOutcome.ok none]
      (by decide)).1

/-- A concrete workflow failure as `process_chat_task` would catch it. -/
def demoExc : PyExc :=
  { msg := "ZeroDivisionError: division by zero",
    tb := "Traceback (most recent call last):\n  File app.py, line 67, in process_chat_task" }

/-- Counterexample to C9 as stated: for a failed execution, the status
operation returns the stored error field verbatim — the exception text and
traceback — not a short generic message. -/
theorem error_detail_exposed_cex :
    (get_task_status "t1" (process_chat_task (InvokeResult.raised demoExc))).status = "failed"
    ∧ (get_task_status "t1" (process_chat_task (InvokeResult.raised demoExc))).error
        = some ("ZeroDivisionError: division by zero" ++ "\n"
            ++ "Traceback (most recent call last):\n  File app.py, line 67, in process_chat_task") :=
  ⟨rfl, rfl⟩

/-- C9 (corrected): for every failed execution the status operation reports
`failed`, and its `error` field is exactly the internal detail that
`process_chat_task` stored — `str(e)` followed by the traceback — returned
verbatim to the caller. -/
theorem failed_task_returns_error_detail (e : PyExc) (tid : String) :
    (get_task_status tid (process_chat_task (InvokeResult.raised e))).status = "failed"
    ∧ (get_task_status tid (process_chat_task (InvokeResult.raised e))).error
        = some (e.msg ++ "\n" ++ e.tb)
    ∧ (get_task_status tid (process_chat_task (InvokeResult.raised e))).result = none :=
  ⟨rfl, rfl, rfl⟩

/-- The HTTP operations `app.py` registers: `POST /chat`, `GET /status/{task_id}`,
`GET /` (lines 91-128). -/
inductive Endpoint where
  | chat
  | status
  | health
deriving DecidableEq, Repr

/-- The request fields each endpoint accepts (`ChatRequest` has `message`
and `thread_id`; the status operation takes the path parameter `task_id`;
the health check takes nothing). -/
def endpointRequestFields : Endpoint → List String
  | .chat => ["message", "thread_id"]
  | .status => ["task_id"]
  | .health => []

/-- The methods the `DeepAgents` class body defines (`deep_agent.py`,
lines 66-133). -/
def deepAgentsDefinedMethods : List String :=
  ["__init__", "create_agents", "invoke"]

/-- The methods the `DeepAgents` docstring documents (`deep_agent.py`,
lines 55-59: "Methods: create_agents ... invoke ... resume_execution(thread_id):
Resumes execution after a human interrupt with approval."). -/
def deepAgentsDocstringMethods : List String :=
  ["create_agents", "invoke", "resume_execution"]

/-- C3 (code_bug): no transport operation accepts a resume decision, and the
`resume_execution` method the `DeepAgents` docstring documents does not exist
in the class body — the system provides no resume operation at all. -/
theorem no_resume_operation :
    (endpointRequestFields Endpoint.chat).contains "decision" = false
    ∧ (endpointRequestFields Endpoint.status).contains "decision" = false
    ∧ (endpointRequestFields Endpoint.health).contains "decision" = false
    ∧ deepAgentsDefinedMethods.contains "resume_execution" = false
    ∧ deepAgentsDocstringMethods.contains "resume_execution" = true :=
  ⟨rfl, rfl, rfl, rfl, rfl⟩

/-- The JSON object the query-analyzer sub-agent emits, as the middleware
reads it: `data.get("needs_interrupt")` (absent key gives a falsy `None`),
and the `data["rewritten_query"]`, `data["type"]`, `data["reason"]`
subscripts, each of which raises `KeyError` when absent. -/
structure ClassifierJson where
  needs_interrupt : Option Bool
  rewritten_query : Option String
  type : Option String
  reason : Option String
deriving DecidableEq, Repr

/-- The last message content as handed to `json.loads`: it can fail to parse
(`JSONDecodeError`), parse to a JSON value that is not an object (an array
or a scalar — valid JSON carrying none of the required fields, on which
`data.get` raises `AttributeError`), or parse to an object. -/
inductive ClassifierOutput where
  | unparseable
  | nonObject
  | parsed : ClassifierJson → ClassifierOutput
deriving DecidableEq, Repr

/-- The exception classes the middleware body can raise: `json.loads` raises
`JSONDecodeError` on unparseable text; `data.get` on a non-dict raises
`AttributeError`; subscripting a dict without the key raises `KeyError`;
and calling `langgraph.types.interrupt` — whose signature takes one
positional value — with `message=`/`data=` keyword arguments raises
`TypeError`. -/
inductive AnalyzerExc where
  | jsonDecodeError
  | keyError
  | typeError
  | attributeError
deriving DecidableEq, Repr

/-- What `QueryAnalyzerHumanInterruptMiddleware.after_agent_logic` can
produce without raising: only the state returned unchanged (the pipeline
proceeds). The intended human-approval interrupt is not a possible outcome,
because the interrupt invocation itself raises (see `analyzer_try_body`). -/
inductive AnalyzerOutcome where
  | proceed
deriving DecidableEq, Repr

/-- The `try` body of `QueryAnalyzerHumanInterruptMiddleware.after_agent_logic`
(`query_analyzer_middlerware.py`, lines 19-34): `json.loads` the content
(`JSONDecodeError` on unparseable text), test `data.get("needs_interrupt")`
for truthiness (`AttributeError` when the parsed value is not an object),
and on a truthy value build the interrupt message — reading
`data["rewritten_query"]`, `data["type"]`, `data["reason"]`, with `KeyError`
when one is absent — then call `interrupt(message=..., data=...)`.
`langgraph.types.interrupt` accepts a single positional value, so that
keyword-argument call raises `TypeError` before any interrupt is
registered: the suspension never happens. -/
def analyzer_try_body : ClassifierOutput → Except AnalyzerExc AnalyzerOutcome
  | .unparseable => .error .jsonDecodeError
  | .nonObject => .error .attributeError
  | .parsed j =>
    if j.needs_interrupt.getD false then
      match j.rewritten_query, j.type, j.reason with
      | some _, some _, some _ => .error .typeError
      | _, _, _ => .error .keyError
    else .ok .proceed

/-- The exception classes caught by
`except (json.JSONDecodeError, KeyError, TypeError): pass` (line 35);
`AttributeError` is not among them. -/
def analyzerCaught : List AnalyzerExc :=
  [.jsonDecodeError, .keyError, .typeError]

/-- `QueryAnalyzerHumanInterruptMiddleware.after_agent_logic`
(`query_analyzer_middlerware.py`, lines 17-37): the `try` body, with any
caught exception swallowed by `pass` so the state is returned unchanged;
an uncaught exception propagates. -/
def after_agent_logic (c : ClassifierOutput) : Except AnalyzerExc AnalyzerOutcome :=
  match analyzer_try_body c with
  | .ok r => .ok r
  | .error e => if e ∈ analyzerCaught then .ok .proceed else .error e

/-- A classifier output is malformed when the content does not parse as
JSON, parses to a non-object value, or parses to an object missing one of
the four required fields (`needs_interrupt` included). -/
def ClassifierMalformed : ClassifierOutput → Prop
  | .unparseable => True
  | .nonObject => True
  | .parsed j =>
      j.needs_interrupt = none ∨ j.rewritten_query = none
        ∨ j.type = none ∨ j.reason = none

theorem parsed_always_proceeds (j : ClassifierJson) :
    after_agent_logic (ClassifierOutput.parsed j)
      = Except.ok AnalyzerOutcome.proceed := by
  rcases j with ⟨ni, rq, ty, re⟩
  rcases ni with _ | b
  · rfl
  · cases b
    · rfl
    · rcases rq with _ | q
      · rfl
      · rcases ty with _ | t
        · rfl
        · rcases re with _ | r <;> rfl

/-- `str(e)` and traceback of the uncaught `AttributeError`, as
`process_chat_task` would record them. -/
def attributeErrorExc : PyExc :=
  { msg := "AttributeError: 'list' object has no attribute 'get'",
    tb := "Traceback (most recent call last): ..." }

/-- Counterexample to C6 as stated: a syntactically valid but non-object
classifier output (a JSON array or scalar, which carries none of the
required fields) makes `data.get` raise `AttributeError`; the except clause
does not catch it, so this malformed result propagates as a fatal error and
the task is recorded as failed. -/
theorem nonobject_classifier_fatal_cex :
    ClassifierMalformed ClassifierOutput.nonObject
    ∧ after_agent_logic ClassifierOutput.nonObject
        = Except.error AnalyzerExc.attributeError
    ∧ (process_chat_task (InvokeResult.raised attributeErrorExc)).status = "failed" :=
  ⟨trivial, rfl, rfl⟩

/-- C6 (corrected): for malformed outputs whose failure raises a caught
exception class — unparseable JSON (`JSONDecodeError`) and objects with
missing required fields (a missing `needs_interrupt` is falsy, a missing
payload field raises `KeyError`) — the middleware neither retries nor
fails: it returns the state unchanged, exactly the result of a well-formed
`needs_interrupt=false, type="complex"` output. A valid-JSON non-object
output instead raises `AttributeError`, which is not caught and propagates
as a fatal error. -/
theorem malformed_classifier_fallback (c : ClassifierOutput)
    (h : ClassifierMalformed c) :
    (c ≠ ClassifierOutput.nonObject →
        after_agent_logic c = Except.ok AnalyzerOutcome.proceed
        ∧ after_agent_logic c
            = after_agent_logic (ClassifierOutput.parsed
                { needs_interrupt := some false, rewritten_query := some "q",
                  type := some "complex", reason := some "r" }))
    ∧ (c = ClassifierOutput.nonObject →
        after_agent_logic c = Except.error AnalyzerExc.attributeError) := by
  constructor
  · intro hne
    have hc : after_agent_logic c = Except.ok AnalyzerOutcome.proceed := by
      cases c with
      | unparseable => rfl
      | nonObject => exact absurd rfl hne
      | parsed j => exact parsed_always_proceeds j
    exact ⟨hc, hc.trans (parsed_always_proceeds _).symm⟩
  · intro hco
    subst hco
    rfl

/-- Witness for `malformed_classifier_fallback` at unparseable content. -/
theorem malformed_classifier_fallback_witness :
    after_agent_logic ClassifierOutput.unparseable = Except.ok AnalyzerOutcome.proceed
    ∧ after_agent_logic ClassifierOutput.unparseable
        = after_agent_logic (ClassifierOutput.parsed
            { needs_interrupt := some false, rewritten_query := some "q",
              type := some "complex", reason := some "r" }) :=
  (malformed_classifier_fallback ClassifierOutput.unparseable trivial).1 (by decide)

/-- C7 (code_bug): the human-approval interrupt never fires. A multitopic
classification with `needs_interrupt=false` proceeds because the middleware
tests only `data.get("needs_interrupt")`, and even `needs_interrupt=true`
with every payload field present proceeds: the `try` body's
`interrupt(message=..., data=...)` call raises `TypeError` (the function
takes one positional value), which the middleware's own except clause
swallows, returning the state unchanged. -/
theorem interrupt_never_fires :
    analyzer_try_body (ClassifierOutput.parsed
        { needs_interrupt := some true,
          rewritten_query := some "Compare X vs Y vs Z",
          type := some "multitopic",
          reason := some "query spans several distinct topics" })
      = Except.error AnalyzerExc.typeError
    ∧ after_agent_logic (ClassifierOutput.parsed
        { needs_interrupt := some true,
          rewritten_query := some "Compare X vs Y vs Z",
          type := some "multitopic",
          reason := some "query spans several distinct topics" })
      = Except.ok AnalyzerOutcome.proceed
    ∧ after_agent_logic (ClassifierOutput.parsed
        { needs_interrupt := some false,
          rewritten_query := some "Compare X vs Y vs Z",
          type := some "multitopic",
          reason := some "query spans several distinct topics" })
      = Except.ok AnalyzerOutcome.proceed :=
  ⟨rfl, rfl, rfl⟩

/-- Python's `needle in haystack` substring test. -/
def pyIn (needle haystack : String) : Bool :=
  decide (needle.data <:+: haystack.data)

/-- `BaseMiddleware.refusal_phrases` (`base_middleware.py`, lines 17-20):
the two fixed refusal messages shared by every middleware instance. -/
def refusal_phrases : List String :=
  ["I cannot process that request as it violates safety guidelines.",
   "We are unable to give you response as it violates our safety guidelines."]

/-- Result of `ContentSafetyAssistantMiddleware.after_agent_logic`:
the optional replacement message (`none` = pass the output through), paired
with whether `content_safety_check` was invoked. -/
structure AssistantCheckResult where
  update : Option String
  oracleCalled : Bool
deriving DecidableEq, Repr

/-- `ContentSafetyAssistantMiddleware.after_agent_logic`
(`content_safety_middleware.py`, lines 44-61): empty message list passes;
a last message containing any refusal phrase as a substring passes without
calling the oracle; otherwise `content_safety_check(last_message,
role="assistant")` decides, an unsafe verdict replacing the output with
`refusal_phrases[1]` and jumping to end. The messages' contents are the
argument list; `oracle` stands for the external `content_safety_check`. -/
def content_safety_assistant_after (oracle : String → Bool)
    (msgs : List String) : AssistantCheckResult :=
  match msgs.getLast? with
  | none => { update := none, oracleCalled := false }
  | some m =>
    if refusal_phrases.any (fun p => pyIn p m) then
      { update := none, oracleCalled := false }
    else if oracle m then
      { update := none, oracleCalled := true }
    else
      { update := some "We are unable to give you response as it violates our safety guidelines.",
        oracleCalled := true }

/-- C10 (confirmed): whenever the last message contains one of the two fixed
refusal phrases as a substring, the assistant content-safety check passes
(`None`) without invoking the safety oracle, so the result is identical
under any two oracles — the check is bypassed entirely. -/
theorem refusal_phrase_bypasses_safety_check (oracle oracle' : String → Bool)
    (msgs : List String) (m : String)
    (hlast : msgs.getLast? = some m)
    (hsub : refusal_phrases.any (fun p => pyIn p m) = true) :
    content_safety_assistant_after oracle msgs
        = { update := none, oracleCalled := false }
    ∧ content_safety_assistant_after oracle msgs
        = content_safety_assistant_after oracle' msgs := by
  have h : ∀ g : String → Bool, content_safety_assistant_after g msgs
      = { update := none, oracleCalled := false } := by
    intro g
    simp [content_safety_assistant_after, hlast, hsub]
  exact ⟨h oracle, (h oracle).trans (h oracle').symm⟩

/-- An "unsafe" oracle stub that flags every message, and a final output
that merely quotes a refusal phrase. -/
def oracleFlagsAll : String → Bool := fun _ => false

/-- A permissive oracle stub that passes every message. -/
def oraclePassesAll : String → Bool := fun _ => true

/-- A final output that embeds a refusal phrase inside other content. -/
def refusalEchoMsg : String :=
  "Summary: We are unable to give you response as it violates our safety guidelines. [1] details"

/-- Witness for `refusal_phrase_bypasses_safety_check`: a message embedding
`refusal_phrases[1]` passes unchecked even under an oracle that flags
everything, and agrees with the run under a permissive oracle. -/
theorem refusal_phrase_bypasses_safety_check_witness :
    content_safety_assistant_after oracleFlagsAll [refusalEchoMsg]
        = { update := none, oracleCalled := false }
    ∧ content_safety_assistant_after oracleFlagsAll [refusalEchoMsg]
        = content_safety_assistant_after oraclePassesAll [refusalEchoMsg] :=
  refusal_phrase_bypasses_safety_check oracleFlagsAll oraclePassesAll
    [refusalEchoMsg] refusalEchoMsg rfl (by decide)

/-- A research unit's output (spec §3): immutable findings plus an ordered
sequence of `(source_url, title)` citations. -/
structure UnitResult where
  unit_id : Nat
  raw_findings : String
  citations : List (String × String)
deriving DecidableEq, Repr

/-- A run-scoped citation record (spec §3): 1-based dense unique index,
url, title. -/
structure Citation where
  index : Nat
  url : String
  title : String
deriving DecidableEq, Repr

/-- Every URL occurrence across all unit results, in unit creation order. -/
def allCitedUrls (rs : List UnitResult) : List String :=
  (rs.map fun r => r.citations.map Prod.fst).flatten

/-- Record a URL: a first occurrence is appended, a repeat is dropped. -/
def addUrl (seen : List String) (u : String) : List String :=
  if u ∈ seen then seen else seen ++ [u]

/-- The distinct URLs in order of first occurrence. -/
def distinctUrls (rs : List UnitResult) : List String :=
  (allCitedUrls rs).foldl addUrl []

/-- The title recorded at a URL's first occurrence. -/
def titleFor (rs : List UnitResult) (u : String) : String :=
  match ((rs.map UnitResult.citations).flatten).find? (fun p => p.1 == u) with
  | some p => p.2
  | none => ""

/-- Number a URL list consecutively starting at `i`. -/
def numberFrom (rs : List UnitResult) (i : Nat) : List String → List Citation
  | [] => []
  | u :: rest => { index := i, url := u, title := titleFor rs u } :: numberFrom rs (i + 1) rest

/-- Modelled from the spec: the Merger (spec §4.4) has no implementation under
the backend sources — deduplication and renumbering are delegated to the
orchestrator prompt ("Deduplicate and renumber citations so every unique URL
appears exactly once across the entire project (1, 2, 3… no gaps, no
duplicates)", `PROMPTS.py` lines 33-35, 269). Following §4.4: walk results in
unit creation order, give the first occurrence of a URL the next unused index
starting at 1, and let every later occurrence of that URL reuse it. -/
def merge (rs : List UnitResult) : List Citation :=
  numberFrom rs 1 (distinctUrls rs)

theorem numberFrom_map_index (rs : List UnitResult) (l : List String) (i : Nat) :
    (numberFrom rs i l).map Citation.index = List.range' i l.length := by
  induction l generalizing i with
  | nil => rfl
  | cons u rest ih => simp [numberFrom, List.range'_succ, ih]

theorem numberFrom_map_url (rs : List UnitResult) (l : List String) (i : Nat) :
    (numberFrom rs i l).map Citation.url = l := by
  induction l generalizing i with
  | nil => rfl
  | cons u rest ih => simp [numberFrom, ih]

theorem mem_addUrl (seen : List String) (a u : String) :
    u ∈ addUrl seen a ↔ u ∈ seen ∨ u = a := by
  by_cases h : a ∈ seen
  · simp only [addUrl, if_pos h]
    constructor
    · exact Or.inl
    · rintro (hu | rfl)
      · exact hu
      · exact h
  · simp [addUrl, if_neg h]

theorem mem_foldl_addUrl (l : List String) (seen : List String) (u : String) :
    u ∈ l.foldl addUrl seen ↔ u ∈ seen ∨ u ∈ l := by
  induction l generalizing seen with
  | nil => simp
  | cons a rest ih =>
    simp only [List.foldl_cons, ih, mem_addUrl, List.mem_cons]
    tauto

theorem nodup_addUrl (seen : List String) (a : String) (h : seen.Nodup) :
    (addUrl seen a).Nodup := by
  by_cases ha : a ∈ seen
  · simpa [addUrl, if_pos ha] using h
  · simp [addUrl, if_neg ha, List.nodup_append, h, ha]

theorem nodup_foldl_addUrl (l : List String) (seen : List String) (h : seen.Nodup) :
    (l.foldl addUrl seen).Nodup := by
  induction l generalizing seen with
  | nil => simpa
  | cons a rest ih => exact ih (addUrl seen a) (nodup_addUrl seen a h)

theorem distinctUrls_nodup (rs : List UnitResult) : (distinctUrls rs).Nodup :=
  nodup_foldl_addUrl _ [] List.nodup_nil

theorem mem_distinctUrls (rs : List UnitResult) (u : String) :
    u ∈ distinctUrls rs ↔ u ∈ allCitedUrls rs := by
  simpa using mem_foldl_addUrl (allCitedUrls rs) [] u

theorem distinctUrls_length (rs : List UnitResult) :
    (distinctUrls rs).length = (allCitedUrls rs).toFinset.card := by
  have hset : (distinctUrls rs).toFinset = (allCitedUrls rs).toFinset := by
    ext u
    simp [mem_distinctUrls]
  rw [← hset, List.toFinset_card_of_nodup (distinctUrls_nodup rs)]

/-- C2 (confirmed against the spec model): the merged citation indices are
exactly `1..N` in order, where `N` is the number of distinct URLs across all
unit results; the citation list carries each URL exactly once (so every
occurrence of a URL across any units maps to the one index of its record),
and a URL is cited by some unit iff it has a citation record. -/
theorem merge_citation_invariant (rs : List UnitResult) :
    (merge rs).map Citation.index = List.range' 1 (allCitedUrls rs).toFinset.card
    ∧ ((merge rs).map Citation.url).Nodup
    ∧ (∀ u, u ∈ allCitedUrls rs ↔ ∃ c ∈ merge rs, c.url = u)
    ∧ (∀ c₁ ∈ merge rs, ∀ c₂ ∈ merge rs, c₁.url = c₂.url → c₁ = c₂) := by
  have hurl : (merge rs).map Citation.url = distinctUrls rs :=
    numberFrom_map_url rs (distinctUrls rs) 1
  have hnd : ((merge rs).map Citation.url).Nodup := by
    rw [hurl]; exact distinctUrls_nodup rs
  refine ⟨?_, hnd, ?_, ?_⟩
  · rw [merge, numberFrom_map_index, distinctUrls_length]
  · intro u
    rw [← mem_distinctUrls, ← hurl, List.mem_map]
  · intro c₁ h₁ c₂ h₂ hu
    exact List.inj_on_of_nodup_map hnd h₁ h₂ hu

/-- Spec §8 scenario 3: two units cite the same URL, a third cites another. -/
def demoResults : List UnitResult :=
  [{ unit_id := 1, raw_findings := "f1", citations := [("https://a.example/p", "A")] },
   { unit_id := 2, raw_findings := "f2", citations := [("https://a.example/p", "A")] },
   { unit_id := 3, raw_findings := "f3", citations := [("https://b.example/q", "B")] }]

/-- Witness for `merge_citation_invariant` on spec scenario 3: exactly two
distinct indices, `[1, 2]`, despite three citation occurrences. -/
theorem merge_citation_invariant_witness :
    (merge demoResults).map Citation.index
        = List.range' 1 (allCitedUrls demoResults).toFinset.card
    ∧ (allCitedUrls demoResults).toFinset.card = 2
    ∧ (merge demoResults).map Citation.index = [1, 2] :=
  ⟨(merge_citation_invariant demoResults).1, by decide, by decide⟩

/-- A Scheduler snapshot: units planned but not yet dispatched in the current
round, units in flight, units finished, and delegation rounds opened so far. -/
structure SchedState where
  pending : Nat
  running : Nat
  done : Nat
  rounds : Nat
deriving DecidableEq, Repr

/-- Modelled from the spec: the Scheduler (spec §4.3) has no implementation
under the backend sources — `DeepAgents.__init__` only interpolates
`max_concurrent_research_units` (K) and `max_researcher_iterations` (R) into
the delegation prompt (`deep_agent.py`, lines 66-80). Following §4.3:
a planner opens a new round (at most `R` in total) only when the previous one
has drained; a unit is dispatched only while fewer than `K` are in flight,
so a `(K+1)`-th unit waits for a slot; a running unit may finish at any
time. -/
inductive SchedStep (K R : Nat) : SchedState → SchedState → Prop where
  | newRound (s : SchedState) (n : Nat) :
      s.rounds < R → s.pending = 0 → s.running = 0 →
      SchedStep K R s ⟨n, s.running, s.done, s.rounds + 1⟩
  | start (s : SchedState) :
      0 < s.pending → s.running < K →
      SchedStep K R s ⟨s.pending - 1, s.running + 1, s.done, s.rounds⟩
  | finish (s : SchedState) :
      0 < s.running →
      SchedStep K R s ⟨s.pending, s.running - 1, s.done + 1, s.rounds⟩

/-- The Scheduler starts with nothing planned, in flight, or done. -/
def schedInit : SchedState := ⟨0, 0, 0, 0⟩

/-- The states a Scheduler run with limits `K`, `R` can pass through. -/
def SchedReachable (K R : Nat) (s : SchedState) : Prop :=
  Relation.ReflTransGen (SchedStep K R) schedInit s

/-- C8 (confirmed against the spec model): at every instant of a Scheduler
run with concurrency limit `K` and round limit `R`, at most `K` units are in
flight and at most `R` delegation rounds have been opened. -/
theorem bounded_concurrency (K R : Nat) (s : SchedState)
    (h : SchedReachable K R s) : s.running ≤ K ∧ s.rounds ≤ R := by
  induction h with
  | refl => exact ⟨Nat.zero_le K, Nat.zero_le R⟩
  | tail hsteps hstep ih =>
    obtain ⟨ihK, ihR⟩ := ih
    cases hstep with
    | newRound n hr hp hrun => exact ⟨ihK, hr⟩
    | start hp hrun => exact ⟨hrun, ihR⟩
    | finish hrun => exact ⟨Nat.le_trans (Nat.sub_le _ _) ihK, ihR⟩

/-- Witness for `bounded_concurrency`: with `K = 2`, `R = 1`, the run that
opens one round of five units and dispatches two of them reaches a state the
theorem bounds — two in flight (≤ 2) and one round (≤ 1); a third dispatch
is impossible while both slots are taken. -/
theorem bounded_concurrency_witness :
    SchedReachable 2 1 ⟨3, 2, 0, 1⟩
    ∧ (SchedState.mk 3 2 0 1).running ≤ 2 ∧ (SchedState.mk 3 2 0 1).rounds ≤ 1 := by
  have h1 : SchedStep 2 1 schedInit ⟨5, 0, 0, 1⟩ :=
    SchedStep.newRound schedInit 5 (by decide) rfl rfl
  have h2 : SchedStep 2 1 ⟨5, 0, 0, 1⟩ ⟨4, 1, 0, 1⟩ :=
    SchedStep.start ⟨5, 0, 0, 1⟩ (by decide) (by decide)
  have h3 : SchedStep 2 1 ⟨4, 1, 0, 1⟩ ⟨3, 2, 0, 1⟩ :=
    SchedStep.start ⟨4, 1, 0, 1⟩ (by decide) (by decide)
  have hreach : SchedReachable 2 1 ⟨3, 2, 0, 1⟩ :=
    Relation.ReflTransGen.tail
      (Relation.ReflTransGen.tail
        (Relation.ReflTransGen.tail Relation.ReflTransGen.refl h1) h2) h3
  exact ⟨hreach,
    (bounded_concurrency 2 1 ⟨3, 2, 0, 1⟩ hreach).1,
    (bounded_concurrency 2 1 ⟨3, 2, 0, 1⟩ hreach).2⟩

end ResearchAssistant
